import Mathlib

/-!
Verification of the gitsync-pro repository mirror-sync application.

The frontend demo engine (MockStore in src/unnamed/part_004), the
live-log WebSocket reducer (src/pages/Jobs.tsx) and the API mappers
(src/services/api.ts) are embedded shallowly below.  JavaScript ISO
timestamp strings are modelled as natural-number milliseconds (the code
only ever compares them through Date.getTime()), and every call to
Math.random() becomes an explicit input parameter recording the value
the call produced.  Components of the backend sync engine that are not
present in the sources (the compare classification and the credential
resolver / sanitizer) are modelled from the specification; their doc
comments say so explicitly.
-/

/-- SyncStatus enum from types: IDLE, SYNCING, SUCCESS, FAILED. -/
inductive SyncStatus where
  | IDLE
  | SYNCING
  | SUCCESS
  | FAILED
deriving DecidableEq, Repr

/-- Log levels appearing in job-run log entries and the live-log wire shape. -/
inductive LogLevel where
  | INFO
  | WARN
  | ERROR
  | DEBUG
  | COMPLETE
  | FAILED
deriving DecidableEq, Repr

/-- UserRole enum: ADMIN, EDITOR, VIEWER. -/
inductive UserRole where
  | ADMIN
  | EDITOR
  | VIEWER
deriving DecidableEq, Repr

/-- CredentialType enum. -/
inductive CredentialType where
  | USERNAME_PASSWORD
  | SSH_KEY
  | PERSONAL_ACCESS_TOKEN
deriving DecidableEq, Repr

/-- A user record (createdAt modelled as epoch milliseconds). -/
structure User where
  id : String
  username : String
  role : UserRole
  email : String
  createdAt : Nat
deriving DecidableEq, Repr

/-- A stored credential record (secret material lives elsewhere). -/
structure Credential where
  id : String
  name : String
  ctype : CredentialType
  username : String
  createdAt : Nat
deriving DecidableEq, Repr

/-- One entry of a run's log: timestamp (ms), level and message. -/
structure JobRunLogEntry where
  timestamp : Nat
  level : LogLevel
  message : String
deriving DecidableEq, Repr

/-- RunStats counters attached to a successful run. -/
structure RunStats where
  branchesSynced : Nat
  tagsSynced : Nat
  commitsPushed : Nat
  filesChanged : Nat
  bytesTransferred : Nat
deriving DecidableEq, Repr

/-- A JobRun record as stored by the MockStore. -/
structure JobRun where
  id : String
  jobId : String
  startedAt : Nat
  completedAt : Option Nat
  status : SyncStatus
  message : String
  stats : Option RunStats
  logs : List JobRunLogEntry
deriving DecidableEq, Repr

/-- A SyncJob configuration record. -/
structure SyncJob where
  id : String
  name : String
  sourceUrl : String
  sourceCredentialId : String
  destinationUrl : String
  destinationCredentialId : String
  branchFilter : String
  tagFilter : String
  cronSchedule : String
  enabled : Bool
  lastRunStatus : SyncStatus
  lastRunAt : Option Nat
  lastRunMessage : Option String
deriving DecidableEq, Repr

/-- Application settings record. -/
structure AppSettings where
  gitTimeout : Nat
  maxRetries : Nat
  logRetentionDays : Nat
deriving DecidableEq, Repr

/-- The in-memory state of the MockStore.  userPasswords is the
userId-to-password record, modelled as an association list whose
lookup takes the most recent binding, mirroring object assignment. -/
structure MockStoreState where
  users : List User
  userPasswords : List (String × String)
  credentials : List Credential
  jobs : List SyncJob
  jobRuns : List JobRun
  settings : AppSettings
  currentUser : Option User
deriving DecidableEq, Repr

/-- INITIAL_USERS bootstrap data (createdAt values abstracted to 0). -/
def INITIAL_USERS : List User :=
  [ { id := "1", username := "admin", role := UserRole.ADMIN,
      email := "admin@local.host", createdAt := 0 },
    { id := "2", username := "dev_lead", role := UserRole.EDITOR,
      email := "dev@local.host", createdAt := 0 },
    { id := "3", username := "auditor", role := UserRole.VIEWER,
      email := "audit@local.host", createdAt := 0 } ]

/-- INITIAL_PASSWORDS bootstrap data: userId to password. -/
def INITIAL_PASSWORDS : List (String × String) :=
  [ ("1", "admin"), ("2", "password"), ("3", "password") ]

/-- INITIAL_CREDS bootstrap data. -/
def INITIAL_CREDS : List Credential :=
  [ { id := "c1", name := "GitHub Enterprise Read",
      ctype := CredentialType.PERSONAL_ACCESS_TOKEN, username := "svc_reader", createdAt := 0 },
    { id := "c2", name := "GitLab Production Write",
      ctype := CredentialType.SSH_KEY, username := "git", createdAt := 0 } ]

/-- INITIAL_JOBS bootstrap data (relative clock values abstracted to 0). -/
def INITIAL_JOBS : List SyncJob :=
  [ { id := "j1", name := "Core Backend Mirror",
      sourceUrl := "https://github.com/company/core-backend.git",
      sourceCredentialId := "c1",
      destinationUrl := "git@gitlab.internal:infrastructure/core-mirror.git",
      destinationCredentialId := "c2",
      branchFilter := "main|production", tagFilter := "v.*",
      cronSchedule := "*/15 * * * *", enabled := true,
      lastRunStatus := SyncStatus.SUCCESS, lastRunAt := some 0,
      lastRunMessage := some "Synced 5 commits, 1 tag." },
    { id := "j2", name := "Frontend Release Sync",
      sourceUrl := "https://github.com/company/frontend-app.git",
      sourceCredentialId := "c1",
      destinationUrl := "https://bitbucket.org/partner/frontend-delivery.git",
      destinationCredentialId := "",
      branchFilter := "release/.*", tagFilter := "",
      cronSchedule := "0 2 * * *", enabled := true,
      lastRunStatus := SyncStatus.FAILED, lastRunAt := some 0,
      lastRunMessage := some "Error: Remote rejected master (pre-receive hook declined)." } ]

/-- Default settings of the MockStore. -/
def initialSettings : AppSettings :=
  { gitTimeout := 300, maxRetries := 3, logRetentionDays := 14 }

/-- The MockStore state right after construction from the bootstrap data,
before any generated history. -/
def initialMockState : MockStoreState :=
  { users := INITIAL_USERS, userPasswords := INITIAL_PASSWORDS,
    credentials := INITIAL_CREDS, jobs := INITIAL_JOBS, jobRuns := [],
    settings := initialSettings, currentUser := none }

/-- The error messages createMockJobRun and triggerJob draw from. -/
def mockErrors : List String :=
  [ "Connection timed out while pushing to destination",
    "Authentication failed: Invalid credentials",
    "Remote rejected push: pre-receive hook declined",
    "Network error: Unable to resolve host",
    "Permission denied: Insufficient access rights" ]

/-- The values produced by the Math.random() calls inside
createMockJobRun, in order of appearance: branchDraw is
Math.floor(Math.random() times 5), tagDraw the floor of random times 3,
commitDraw of random times 20, fileDraw of random times 50, bytesDraw of
random times 5000000, megabytesText the rendered fixed-point text of
random times 5 plus 0.5, errorDraw the error index. -/
structure MockDraws where
  branchDraw : Nat
  tagDraw : Nat
  commitDraw : Nat
  fileDraw : Nat
  bytesDraw : Nat
  megabytesText : String
  errorDraw : Nat
deriving DecidableEq, Repr

/-- MockStore.createMockJobRun: builds a historical run record whose log
timestamps advance by fixed increments, except that the final entry is
stamped with endTime computed from durationSecs. -/
def createMockJobRun (runId jobId : String) (startTime : Nat) (success : Bool)
    (durationSecs : Nat) (d : MockDraws) : JobRun :=
  let endTime := startTime + durationSecs * 1000
  let branchesSynced := d.branchDraw + 1
  let tagsSynced := d.tagDraw
  let commitsPushed := if success then d.commitDraw + 1 else 0
  let filesChanged := if success then d.fileDraw + commitsPushed else 0
  let l0 : List JobRunLogEntry :=
    [ { timestamp := startTime, level := LogLevel.INFO, message := "Starting sync job..." } ]
  let c1 := startTime + 500
  let l1 := l0 ++ [ { timestamp := c1, level := LogLevel.INFO,
                      message := "Connecting to source repository..." } ]
  let c2 := c1 + 1200
  let l2 := l1 ++ [ { timestamp := c2, level := LogLevel.INFO,
                      message := "Fetching remote refs..." } ]
  let c3 := c2 + 800
  let l3 := l2 ++ [ { timestamp := c3, level := LogLevel.DEBUG,
                      message := "Found " ++ toString branchesSynced ++ " branches matching filter" } ]
  let c4 := c3 + 300
  let l4 := if 0 < tagsSynced then
      l3 ++ [ { timestamp := c4, level := LogLevel.DEBUG,
                message := "Found " ++ toString tagsSynced ++ " tags matching filter" } ]
    else l3
  let c5 := if 0 < tagsSynced then c4 + 200 else c4
  let l5 := l4 ++ [ { timestamp := c5, level := LogLevel.INFO,
                      message := "Connecting to destination repository..." } ]
  let c6 := c5 + 1000
  let logsFinal :=
    if success then
      let l6 := l5 ++ [ { timestamp := c6, level := LogLevel.INFO,
                          message := "Pushing " ++ toString commitsPushed ++ " commits..." } ]
      let c7 := c6 + 2000
      let l7 := l6 ++ [ { timestamp := c7, level := LogLevel.INFO,
                          message := "Transferred " ++ toString filesChanged ++ " files ("
                                     ++ d.megabytesText ++ " MB)" } ]
      l7 ++ [ { timestamp := endTime, level := LogLevel.INFO,
                message := "Sync completed successfully in " ++ toString durationSecs ++ "s" } ]
    else
      let l6 := l5 ++ [ { timestamp := c6, level := LogLevel.WARN,
                          message := "Push operation taking longer than expected..." } ]
      l6 ++ [ { timestamp := endTime, level := LogLevel.ERROR,
                message := mockErrors.getD d.errorDraw "" } ]
  { id := runId, jobId := jobId, startedAt := startTime, completedAt := some endTime,
    status := if success then SyncStatus.SUCCESS else SyncStatus.FAILED,
    message := if success then
        "Synced " ++ toString branchesSynced ++ " branches, " ++ toString tagsSynced
          ++ " tags, " ++ toString commitsPushed ++ " commits"
      else ((logsFinal.getLast?).map (fun e => e.message)).getD "",
    stats := if success then
        some { branchesSynced := branchesSynced, tagsSynced := tagsSynced,
               commitsPushed := commitsPushed, filesChanged := filesChanged,
               bytesTransferred := d.bytesDraw + 100000 }
      else none,
    logs := logsFinal }

/-- MockStore.getActiveRun: the first stored run of the job whose status
is still SYNCING, if any. -/
def getActiveRun (s : MockStoreState) (jobId : String) : Option JobRun :=
  s.jobRuns.find? (fun r => r.jobId == jobId && r.status == SyncStatus.SYNCING)

/-- The run record MockStore.triggerJob creates before scheduling its
progressive log callbacks. -/
def triggerInitialRun (runId jobId : String) (now : Nat) : JobRun :=
  { id := runId, jobId := jobId, startedAt := now, completedAt := none,
    status := SyncStatus.SYNCING, message := "Sync started manually...",
    stats := none,
    logs := [ { timestamp := now, level := LogLevel.INFO,
                message := "Sync job triggered manually" } ] }

/-- The synchronous part of MockStore.triggerJob: unconditionally creates
a new SYNCING run, prepends it to jobRuns, marks the job SYNCING, and
returns the generated run id. -/
def triggerJobStart (s : MockStoreState) (id runId : String) (now : Nat) :
    String × MockStoreState :=
  (runId,
   { s with
     jobRuns := triggerInitialRun runId id now :: s.jobRuns,
     jobs := s.jobs.map (fun j =>
       if j.id == id then
         { j with lastRunStatus := SyncStatus.SYNCING,
                  lastRunMessage := some "Sync started manually..." }
       else j) })

/-- MockStore.login.  The supplied password is optional; the stored
password check is skipped when no entry exists or the stored entry is the
empty string (a falsy string in the source).  Returns the outcome
together with the store state after the call. -/
def login (s : MockStoreState) (username : String) (password : Option String) :
    Except String User × MockStoreState :=
  match s.users.find? (fun u => u.username == username) with
  | none => (Except.error "Invalid username or password.", s)
  | some user =>
    match s.userPasswords.lookup user.id with
    | some storedPass =>
      if storedPass ≠ "" ∧ password ≠ some storedPass then
        (Except.error "Invalid username or password.", s)
      else
        (Except.ok user, { s with currentUser := some user })
    | none => (Except.ok user, { s with currentUser := some user })

/-- MockStore.createUser: appends the user and stores the supplied
password when it is truthy, the default password otherwise. -/
def createUser (s : MockStoreState) (u : User) (password : Option String) :
    MockStoreState :=
  let stored := match password with
    | some p => if p ≠ "" then p else "password"
    | none => "password"
  { s with users := s.users ++ [u],
           userPasswords := (u.id, stored) :: s.userPasswords }

/-- MockStore.updateUser: maps the update over users and overwrites the
stored password only when the supplied one is truthy and not blank. -/
def updateUser (s : MockStoreState) (id : String) (updates : User → User)
    (password : Option String) : MockStoreState :=
  let s1 := { s with users := s.users.map (fun u => if u.id == id then updates u else u) }
  match password with
  | some p => if p ≠ "" ∧ p.trim ≠ "" then
      { s1 with userPasswords := (id, p) :: s1.userPasswords }
    else s1
  | none => s1

/-- MockStore.deleteJob: removes the job and its run history. -/
def deleteJob (s : MockStoreState) (id : String) : MockStoreState :=
  { s with jobs := s.jobs.filter (fun j => j.id != id),
           jobRuns := s.jobRuns.filter (fun r => r.jobId != id) }

/-- The comparator of MockStore.getJobRuns: startedAt descending. -/
def runStartedDesc (a b : JobRun) : Bool := b.startedAt ≤ a.startedAt

/-- MockStore.getJobRuns: the runs of the job, most recent first.  The
source filters (which copies) and then sorts the copy, so the stored
list is untouched; the returned state records that. -/
def getJobRuns (s : MockStoreState) (jobId : String) :
    List JobRun × MockStoreState :=
  ((s.jobRuns.filter (fun r => r.jobId == jobId)).mergeSort runStartedDesc, s)

/-- The values produced by the Math.random() calls inside
MockStore.triggerJob: foundBranchDraw feeds the branches-found DEBUG log,
commitDraw and fileDraw the success push logs, megabytesText the rendered
transfer size, errorDraw the failure message index, and the stats draws
feed the freshly generated RunStats at finalization. -/
structure TriggerDraws where
  foundBranchDraw : Nat
  commitDraw : Nat
  fileDraw : Nat
  megabytesText : String
  errorDraw : Nat
  statsBranchDraw : Nat
  statsTagDraw : Nat
  statsCommitDraw : Nat
  statsFileDraw : Nat
  statsBytesDraw : Nat
deriving DecidableEq, Repr

/-- The logMessages array built by MockStore.triggerJob: five base
entries plus a success or failure tail.  Each entry is (delay, level,
message); the delays only schedule the callbacks. -/
def triggerLogMessages (success : Bool) (d : TriggerDraws) :
    List (Nat × LogLevel × String) :=
  let base : List (Nat × LogLevel × String) :=
    [ (500, LogLevel.INFO, "Connecting to source repository..."),
      (1200, LogLevel.INFO, "Fetching remote refs..."),
      (800, LogLevel.DEBUG, "Found " ++ toString (d.foundBranchDraw + 1)
                            ++ " branches matching filter"),
      (500, LogLevel.INFO, "Connecting to destination repository..."),
      (1000, LogLevel.INFO, "Analyzing changes...") ]
  if success then
    base ++
      [ (1500, LogLevel.INFO, "Pushing " ++ toString (d.commitDraw + 1) ++ " commits..."),
        (2000, LogLevel.INFO, "Transferred " ++ toString (d.fileDraw + (d.commitDraw + 1))
                              ++ " files (" ++ d.megabytesText ++ " MB)"),
        (500, LogLevel.INFO, "Sync completed successfully") ]
  else
    base ++
      [ (1500, LogLevel.WARN, "Push operation taking longer than expected..."),
        (2000, LogLevel.ERROR, mockErrors.getD d.errorDraw "") ]

/-- The RunStats generated at finalization of a successful triggerJob run. -/
def triggerFinalStats (d : TriggerDraws) : RunStats :=
  { branchesSynced := d.statsBranchDraw + 1,
    tagsSynced := d.statsTagDraw,
    commitsPushed := d.statsCommitDraw + 1,
    filesChanged := d.statsFileDraw + (d.statsCommitDraw + 1),
    bytesTransferred := d.statsBytesDraw + 100000 }

/-- One progressive-log callback of MockStore.triggerJob acting on the
run record: it appends the log entry and updates the message; the last
callback additionally finalizes status, completedAt and, on success,
stats and the aggregate message. -/
def triggerCallback (success : Bool) (d : TriggerDraws) (isLast : Bool)
    (ts endTime durationSecs : Nat) (level : LogLevel) (msg : String)
    (run : JobRun) : JobRun :=
  let r1 := { run with
              logs := run.logs ++ [ { timestamp := ts, level := level, message := msg } ],
              message := msg }
  if isLast then
    let r2 := { r1 with
                status := if success then SyncStatus.SUCCESS else SyncStatus.FAILED,
                completedAt := some endTime }
    if success then
      { r2 with
        stats := some (triggerFinalStats d),
        message := "Synced " ++ toString (d.statsBranchDraw + 1) ++ " branches, "
                   ++ toString d.statsTagDraw ++ " tags, "
                   ++ toString (d.statsCommitDraw + 1) ++ " commits in "
                   ++ toString durationSecs ++ "s" }
    else r2
  else r1

/-- Runs the scheduled callbacks in order over the run record.  The
counter i is the callback index within the full list of n messages; the
callback at index n - 1 is the finalizing one, as in the source. -/
def applyCallbacks (success : Bool) (d : TriggerDraws) (times : Nat → Nat)
    (endTime durationSecs n : Nat) :
    Nat → List (Nat × LogLevel × String) → JobRun → JobRun
  | _, [], run => run
  | i, m :: rest, run =>
      applyCallbacks success d times endTime durationSecs n (i + 1) rest
        (triggerCallback success d (i == n - 1) (times i) endTime durationSecs
          m.2.1 m.2.2 run)

/-- The run record after the first k of triggerJob's scheduled callbacks
have fired. -/
def triggerRunAfter (success : Bool) (d : TriggerDraws) (times : Nat → Nat)
    (endTime durationSecs : Nat) (init : JobRun) (k : Nat) : JobRun :=
  let msgs := triggerLogMessages success d
  applyCallbacks success d times endTime durationSecs msgs.length 0 (msgs.take k) init

/-- The live run record Jobs.tsx builds when a sync is triggered. -/
def initialLiveRun (runId jobId : String) (now : Nat) : JobRun :=
  { id := runId, jobId := jobId, startedAt := now, completedAt := none,
    status := SyncStatus.SYNCING, message := "Starting sync...",
    stats := none, logs := [] }

/-- The ws.onmessage reducer of Jobs.tsx handleTrigger: appends the
event, mirrors its message, and moves the run to SUCCESS or FAILED
exactly when the event level is COMPLETE or FAILED, stamping completedAt
with the arrival time. -/
def wsStep (prev : JobRun) (e : JobRunLogEntry) (now : Nat) : JobRun :=
  let isComplete := e.level == LogLevel.COMPLETE || e.level == LogLevel.FAILED
  { prev with
    logs := prev.logs ++ [e],
    message := e.message,
    status := if isComplete then
        (if e.level == LogLevel.COMPLETE then SyncStatus.SUCCESS else SyncStatus.FAILED)
      else prev.status,
    completedAt := if isComplete then some now else prev.completedAt }

/-- The live run after a sequence of WebSocket events, each paired with
its arrival time, has been observed. -/
def wsFold (run : JobRun) (events : List (JobRunLogEntry × Nat)) : JobRun :=
  events.foldl (fun r en => wsStep r en.1 en.2) run

/-- Branch comparison statuses of a CompareResult. -/
inductive BranchStatus where
  | synced
  | ahead
  | behind
  | diverged
  | new_in_source
  | new_in_dest
deriving DecidableEq, Repr

/-- Tag comparison statuses of a CompareResult. -/
inductive TagStatus where
  | synced
  | new_in_source
  | new_in_dest
  | different
deriving DecidableEq, Repr

/-- Modelled from the spec: the CompareEngine branch classification is
computed by the backend, which is absent from the sources
(src/services/api.ts only renames its fields).  Following the documented
case order: a branch present on one side only is new on that side; equal
commit ids are synced; otherwise the asymmetric reachability counts
decide ahead, behind or diverged.  The both-absent case never arises
when iterating the union of branch names; for git data two distinct
commits always leave at least one direction nonempty, so the final
fallthrough is the both-positive diverged case. -/
def classifyBranch (srcCommit destCommit : Option String)
    (aheadCount behindCount : Nat) : BranchStatus :=
  match srcCommit, destCommit with
  | some _, none => BranchStatus.new_in_source
  | none, some _ => BranchStatus.new_in_dest
  | none, none => BranchStatus.synced
  | some sc, some dc =>
    if sc = dc then BranchStatus.synced
    else if 0 < aheadCount ∧ behindCount = 0 then BranchStatus.ahead
    else if 0 < behindCount ∧ aheadCount = 0 then BranchStatus.behind
    else BranchStatus.diverged

/-- Modelled from the spec: the CompareEngine tag classification (backend
code absent from the sources).  Tags follow the same presence rules but
collapse any commit mismatch to different. -/
def classifyTag (srcCommit destCommit : Option String) : TagStatus :=
  match srcCommit, destCommit with
  | some _, none => TagStatus.new_in_source
  | none, some _ => TagStatus.new_in_dest
  | none, none => TagStatus.synced
  | some sc, some dc => if sc = dc then TagStatus.synced else TagStatus.different

/-- One hexadecimal digit character, uppercase for values ten to fifteen. -/
def hexDigit (n : Nat) : Char :=
  if n < 10 then Char.ofNat (48 + n) else Char.ofNat (55 + n)

/-- Modelled from the spec: the CredentialResolver percent-encodes every
reserved character of a credential component (backend code absent from
the sources).  Unreserved characters (alphanumerics and dash, dot,
underscore, tilde) pass through; every other character becomes a percent
escape of its code point, modelled at byte level for ASCII credential
text. -/
def encChar (c : Char) : List Char :=
  if c.isAlphanum || c == '-' || c == '.' || c == '_' || c == '~' then [c]
  else ['%', hexDigit (c.toNat / 16 % 16), hexDigit (c.toNat % 16)]

/-- Percent-encoding of a whole credential component. -/
def percentEncode (s : String) : List Char :=
  (s.data.map encChar).flatten

/-- Modelled from the spec: the CredentialResolver embeds the user-info
component into the URL directly after the first scheme separator
(backend code absent from the sources). -/
def injectCreds (userinfo : List Char) : List Char → List Char
  | [] => []
  | ':' :: '/' :: '/' :: rest => ':' :: '/' :: '/' :: (userinfo ++ '@' :: rest)
  | c :: rest => c :: injectCreds userinfo rest

/-- Basic-auth credentialed URL: user and password percent-encoded and
joined by a colon, per the documented user colon password convention. -/
def buildBasicAuthUrl (url user pass : String) : String :=
  String.mk (injectCreds (percentEncode user ++ ':' :: percentEncode pass) url.data)

/-- Token credentialed URL: fixed oauth2 user with the percent-encoded
token as password, per the documented oauth2 colon token convention. -/
def buildTokenAuthUrl (url token : String) : String :=
  String.mk (injectCreds ("oauth2".data ++ ':' :: percentEncode token) url.data)

/-- The fixed mask the sanitizer substitutes for the user-info. -/
def sanitizerMask : List Char := "***:***".data

/-- Modelled from the spec: the sanitizer replaces an authority user-info
(everything between the scheme separator and the first at sign, when one
occurs before the first slash) with the fixed mask three stars colon
three stars (backend code absent from the sources). -/
def maskUserinfo (l : List Char) : List Char :=
  if '@' ∈ l.takeWhile (fun c => c ≠ '/') then
    sanitizerMask ++ l.dropWhile (fun c => c ≠ '@')
  else l

/-- Sanitizes a URL string by masking the user-info of its authority. -/
def sanitizeList : List Char → List Char
  | [] => []
  | ':' :: '/' :: '/' :: rest => ':' :: '/' :: '/' :: maskUserinfo rest
  | c :: rest => c :: sanitizeList rest

/-- String-level wrapper of the sanitizer. -/
def sanitizeUrl (url : String) : String := String.mk (sanitizeList url.data)

/-- Substring occurrence test used to state the secret-leak property. -/
def subOccurs (needle hay : List Char) : Bool :=
  match hay with
  | [] => needle.isEmpty
  | _ :: t => needle.isPrefixOf hay || subOccurs needle t

/-- C2: the claim that triggering a job whose earlier run is still
SYNCING is rejected and creates no second SYNCING run is violated by the
code: with a SYNCING run for job j1 already stored (and visible to
getActiveRun), triggerJob still returns a fresh run id and afterwards two
SYNCING runs for j1 coexist in the store. -/
theorem trigger_creates_second_syncing_run :
    (getActiveRun (triggerJobStart initialMockState "j1" "run-a" 1000).2 "j1"
        = some (triggerInitialRun "run-a" "j1" 1000)) ∧
    ((triggerJobStart (triggerJobStart initialMockState "j1" "run-a" 1000).2
        "j1" "run-b" 1200).1 = "run-b") ∧
    (((triggerJobStart (triggerJobStart initialMockState "j1" "run-a" 1000).2
        "j1" "run-b" 1200).2.jobRuns.filter
          (fun r => r.jobId == "j1" && r.status == SyncStatus.SYNCING)).length = 2) := by
  refine ⟨by decide, rfl, by decide⟩

/-- C3: the claim that an empty tag filter pattern yields tagsSynced
equal to zero is violated: job j2 is configured with the empty tag
filter, yet a generated successful run for it reports tagsSynced equal
to one, because the stats are drawn at random without consulting the
filter. -/
theorem empty_tag_filter_run_reports_nonzero_tags :
    ((INITIAL_JOBS.find? (fun j => j.id == "j2")).map (fun j => j.tagFilter) = some "") ∧
    (((createMockJobRun "r1" "j2" 0 true 10
        { branchDraw := 2, tagDraw := 1, commitDraw := 4, fileDraw := 7,
          bytesDraw := 0, megabytesText := "1.00", errorDraw := 0 }).stats).map
      (fun st => st.tagsSynced) = some 1) := by
  exact ⟨by decide, by decide⟩

/-- C5: the claim that log timestamps within one run are monotonically
non-decreasing is violated: a successful generated run of five seconds
stamps its final entry at five thousand milliseconds, after an entry
already stamped at five thousand eight hundred, so consecutive entries
six and seven decrease. -/
theorem mock_run_log_timestamps_not_monotone :
    (((createMockJobRun "r1" "j1" 0 true 5
        { branchDraw := 0, tagDraw := 0, commitDraw := 0, fileDraw := 0,
          bytesDraw := 0, megabytesText := "1.00", errorDraw := 0 }).logs).map
      (fun e => e.timestamp) = [0, 500, 1700, 2500, 2800, 3800, 5800, 5000]) ∧
    (((createMockJobRun "r1" "j1" 0 true 5
        { branchDraw := 0, tagDraw := 0, commitDraw := 0, fileDraw := 0,
          bytesDraw := 0, megabytesText := "1.00", errorDraw := 0 }).logs).map
      (fun e => e.timestamp)).get? 7 = some 5000 ∧ 5000 < 5800 := by
  exact ⟨by decide, by decide, by decide⟩

/-- C1: for the live-log stream reducer, the run's terminal state is
exactly determined by the final event's level: a final COMPLETE event
yields SUCCESS, a final FAILED event yields FAILED, an event of any
other level leaves the status untouched (so it never moves the run to a
terminal state), and a stream with no terminal-level event leaves the
run at its initial status. -/
theorem run_terminal_state_from_final_event
    (run : JobRun) (es : List (JobRunLogEntry × Nat)) (e : JobRunLogEntry) (t : Nat) :
    (e.level = LogLevel.COMPLETE →
      (wsFold run (es ++ [(e, t)])).status = SyncStatus.SUCCESS) ∧
    (e.level = LogLevel.FAILED →
      (wsFold run (es ++ [(e, t)])).status = SyncStatus.FAILED) ∧
    (∀ (r : JobRun) (ev : JobRunLogEntry) (u : Nat),
        ev.level ≠ LogLevel.COMPLETE → ev.level ≠ LogLevel.FAILED →
        (wsStep r ev u).status = r.status) ∧
    ((∀ p ∈ es ++ [(e, t)], p.1.level ≠ LogLevel.COMPLETE ∧ p.1.level ≠ LogLevel.FAILED) →
      (wsFold run (es ++ [(e, t)])).status = run.status) := by
  have hstep : ∀ (r : JobRun) (ev : JobRunLogEntry) (u : Nat),
      ev.level ≠ LogLevel.COMPLETE → ev.level ≠ LogLevel.FAILED →
      (wsStep r ev u).status = r.status := by
    intro r ev u h1 h2
    simp [wsStep, h1, h2]
  have hlast : ∀ l, wsFold run (l ++ [(e, t)]) = wsStep (wsFold run l) e t := by
    intro l
    simp [wsFold, List.foldl_append]
  refine ⟨?_, ?_, hstep, ?_⟩
  · intro hc
    rw [hlast]
    simp [wsStep, hc]
  · intro hc
    rw [hlast]
    simp [wsStep, hc]
  · intro hall
    have hin : ∀ p ∈ es, p.1.level ≠ LogLevel.COMPLETE ∧ p.1.level ≠ LogLevel.FAILED := by
      intro p hp; exact hall p (List.mem_append_left _ hp)
    have he : e.level ≠ LogLevel.COMPLETE ∧ e.level ≠ LogLevel.FAILED := by
      have := hall (e, t) (List.mem_append_right _ (List.mem_singleton_self _))
      exact this
    rw [hlast, hstep _ _ _ he.1 he.2]
    clear hlast hall he
    induction es generalizing run with
    | nil => rfl
    | cons p ps ih =>
      have hp := hin p (List.mem_cons_self _ _)
      have hu : wsFold run (p :: ps) = wsFold (wsStep run p.1 p.2) ps := rfl
      rw [hu, ih _ (fun q hq => hin q (List.mem_cons_of_mem _ hq)), hstep _ _ _ hp.1 hp.2]

/-- Witness for C1 at a concrete stream: an INFO event followed by a
final COMPLETE event yields SUCCESS, and a lone INFO event leaves the
initial SYNCING status untouched. -/
theorem run_terminal_state_from_final_event_witness :
    ((wsFold (initialLiveRun "r1" "j1" 0)
        ([({ timestamp := 1, level := LogLevel.INFO, message := "Fetching remote refs..." }, 1)]
          ++ [({ timestamp := 2, level := LogLevel.COMPLETE,
                 message := "Synced 2 branches, 0 tags, 3 commits" }, 2)])).status
      = SyncStatus.SUCCESS) ∧
    ((wsStep (initialLiveRun "r1" "j1" 0)
        { timestamp := 1, level := LogLevel.INFO, message := "Analyzing changes..." } 1).status
      = (initialLiveRun "r1" "j1" 0).status) := by
  constructor
  · exact (run_terminal_state_from_final_event (initialLiveRun "r1" "j1" 0)
      [({ timestamp := 1, level := LogLevel.INFO, message := "Fetching remote refs..." }, 1)]
      { timestamp := 2, level := LogLevel.COMPLETE,
        message := "Synced 2 branches, 0 tags, 3 commits" } 2).1 rfl
  · exact (run_terminal_state_from_final_event (initialLiveRun "r1" "j1" 0) []
      { timestamp := 0, level := LogLevel.INFO, message := "" } 0).2.2.1
      _ _ 1 (by decide) (by decide)

/-- C7: the run created by triggerJob is finalized exactly once: after
every proper prefix of the scheduled callbacks the status is still
SYNCING with no completedAt and no stats; after the final callback the
status is the terminal SUCCESS or FAILED with completedAt stamped; and
running any further (there are no further callbacks) changes nothing. -/
theorem run_result_finalized_exactly_once
    (success : Bool) (d : TriggerDraws) (times : Nat → Nat) (endTime durationSecs : Nat)
    (runId jobId : String) (startTs : Nat) :
    (∀ k, k < (triggerLogMessages success d).length →
      (triggerRunAfter success d times endTime durationSecs
          (triggerInitialRun runId jobId startTs) k).status = SyncStatus.SYNCING ∧
      (triggerRunAfter success d times endTime durationSecs
          (triggerInitialRun runId jobId startTs) k).completedAt = none ∧
      (triggerRunAfter success d times endTime durationSecs
          (triggerInitialRun runId jobId startTs) k).stats = none) ∧
    ((triggerRunAfter success d times endTime durationSecs
        (triggerInitialRun runId jobId startTs)
        (triggerLogMessages success d).length).status
      = (if success then SyncStatus.SUCCESS else SyncStatus.FAILED)) ∧
    ((triggerRunAfter success d times endTime durationSecs
        (triggerInitialRun runId jobId startTs)
        (triggerLogMessages success d).length).completedAt = some endTime) ∧
    (∀ k, (triggerLogMessages success d).length ≤ k →
      triggerRunAfter success d times endTime durationSecs
          (triggerInitialRun runId jobId startTs) k
        = triggerRunAfter success d times endTime durationSecs
            (triggerInitialRun runId jobId startTs)
            (triggerLogMessages success d).length) := by
  cases success with
  | true =>
    refine ⟨?_, rfl, rfl, ?_⟩
    · intro k hk
      have hlen : (triggerLogMessages true d).length = 8 := rfl
      rw [hlen] at hk
      interval_cases k <;> exact ⟨rfl, rfl, rfl⟩
    · intro k hk
      have hlen : (triggerLogMessages true d).length = 8 := rfl
      rw [hlen] at hk
      simp only [triggerRunAfter]
      rw [List.take_length, List.take_of_length_le (by rw [hlen]; omega)]
  | false =>
    refine ⟨?_, rfl, rfl, ?_⟩
    · intro k hk
      have hlen : (triggerLogMessages false d).length = 7 := rfl
      rw [hlen] at hk
      interval_cases k <;> exact ⟨rfl, rfl, rfl⟩
    · intro k hk
      have hlen : (triggerLogMessages false d).length = 7 := rfl
      rw [hlen] at hk
      simp only [triggerRunAfter]
      rw [List.take_length, List.take_of_length_le (by rw [hlen]; omega)]

/-- Witness for C7 at concrete draws: after all eight callbacks of a
successful run the status is SUCCESS, and after three of them it is
still SYNCING. -/
theorem run_result_finalized_exactly_once_witness :
    ((triggerRunAfter true
        { foundBranchDraw := 1, commitDraw := 2, fileDraw := 3, megabytesText := "2.50",
          errorDraw := 0, statsBranchDraw := 1, statsTagDraw := 0, statsCommitDraw := 2,
          statsFileDraw := 3, statsBytesDraw := 0 }
        (fun i => 1000 + i) 5000 5 (triggerInitialRun "run-a" "j1" 0)
        (triggerLogMessages true
          { foundBranchDraw := 1, commitDraw := 2, fileDraw := 3, megabytesText := "2.50",
            errorDraw := 0, statsBranchDraw := 1, statsTagDraw := 0, statsCommitDraw := 2,
            statsFileDraw := 3, statsBytesDraw := 0 }).length).status = SyncStatus.SUCCESS) ∧
    ((triggerRunAfter true
        { foundBranchDraw := 1, commitDraw := 2, fileDraw := 3, megabytesText := "2.50",
          errorDraw := 0, statsBranchDraw := 1, statsTagDraw := 0, statsCommitDraw := 2,
          statsFileDraw := 3, statsBytesDraw := 0 }
        (fun i => 1000 + i) 5000 5 (triggerInitialRun "run-a" "j1" 0) 3).status
      = SyncStatus.SYNCING) := by
  constructor
  · exact (run_result_finalized_exactly_once true
      { foundBranchDraw := 1, commitDraw := 2, fileDraw := 3, megabytesText := "2.50",
        errorDraw := 0, statsBranchDraw := 1, statsTagDraw := 0, statsCommitDraw := 2,
        statsFileDraw := 3, statsBytesDraw := 0 }
      (fun i => 1000 + i) 5000 5 "run-a" "j1" 0).2.1
  · exact ((run_result_finalized_exactly_once true
      { foundBranchDraw := 1, commitDraw := 2, fileDraw := 3, megabytesText := "2.50",
        errorDraw := 0, statsBranchDraw := 1, statsTagDraw := 0, statsCommitDraw := 2,
        statsFileDraw := 3, statsBytesDraw := 0 }
      (fun i => 1000 + i) 5000 5 "run-a" "j1" 0).1 3 (by decide)).1

/-- Association-list lookup success implies membership of the binding. -/
theorem lookup_mem_of_eq_some {l : List (String × String)} {k v : String}
    (h : l.lookup k = some v) : (k, v) ∈ l := by
  induction l with
  | nil => simp [List.lookup] at h
  | cons p t ih =>
    rcases p with ⟨a, b⟩
    rw [List.lookup] at h
    cases hk : (k == a) with
    | false =>
      rw [hk] at h
      exact List.mem_cons_of_mem _ (ih h)
    | true =>
      rw [hk] at h
      obtain rfl : b = v := by simpa using h
      have hka : k = a := beq_iff_eq.mp hk
      subst hka
      exact List.mem_cons_self _ _

/-- C8: login succeeds (and sets the current user) exactly when a user
with the supplied username is found and either no password is stored for
that user or the stored password equals the supplied one; a user without
a stored entry is accepted with any supplied password, and every failure
throws while leaving the store, in particular the current user,
unchanged.  The hypothesis that stored passwords are non-empty is an
invariant of the store: see the preservation lemmas below. -/
theorem login_success_iff (s : MockStoreState) (username : String) (password : Option String)
    (hwf : ∀ kv ∈ s.userPasswords, kv.2 ≠ "") :
    (s.users.find? (fun u => u.username == username) = none →
      login s username password = (Except.error "Invalid username or password.", s)) ∧
    (∀ u, s.users.find? (fun x => x.username == username) = some u →
      (((login s username password).1 = Except.ok u ∧
        (login s username password).2 = { s with currentUser := some u }) ↔
       (s.userPasswords.lookup u.id = none ∨
        ∃ sp, s.userPasswords.lookup u.id = some sp ∧ password = some sp))) ∧
    (∀ u, s.users.find? (fun x => x.username == username) = some u →
      s.userPasswords.lookup u.id = none →
      (login s username password).1 = Except.ok u) ∧
    (∀ e, (login s username password).1 = Except.error e →
      (login s username password).2 = s) := by
  refine ⟨?_, ?_, ?_, ?_⟩
  · intro hnone
    simp [login, hnone]
  · intro u hu
    cases hlk : s.userPasswords.lookup u.id with
    | none => simp [login, hu, hlk]
    | some sp =>
      have hsp : sp ≠ "" := hwf (u.id, sp) (lookup_mem_of_eq_some hlk)
      by_cases hp : password = some sp
      · simp [login, hu, hlk, hp, hsp]
      · simp [login, hu, hlk, hp, hsp]
  · intro u hu hlk
    simp [login, hu, hlk]
  · intro e
    cases hfind : s.users.find? (fun x => x.username == username) with
    | none => intro _; simp [login, hfind]
    | some u =>
      cases hlk : s.userPasswords.lookup u.id with
      | none => intro h; simp [login, hfind, hlk] at h
      | some sp =>
        by_cases hcond : sp ≠ "" ∧ password ≠ some sp
        · intro _; simp [login, hfind, hlk, hcond]
        · intro h; simp [login, hfind, hlk, hcond] at h

/-- The bootstrap password table stores no empty password. -/
theorem initial_passwords_nonempty :
    ∀ kv ∈ initialMockState.userPasswords, kv.2 ≠ "" := by decide

/-- createUser never stores an empty password: a falsy supplied password
is replaced by the default. -/
theorem createUser_preserves_passwords_nonempty
    (s : MockStoreState) (u : User) (password : Option String)
    (h : ∀ kv ∈ s.userPasswords, kv.2 ≠ "") :
    ∀ kv ∈ (createUser s u password).userPasswords, kv.2 ≠ "" := by
  intro kv hkv
  simp only [createUser, List.mem_cons] at hkv
  rcases hkv with hnew | hold
  · subst hnew
    cases password with
    | none => simp
    | some p =>
      by_cases hp : p = ""
      · simp [hp]
      · simp [hp]
  · exact h kv hold

/-- updateUser never stores an empty password: blank input is ignored. -/
theorem updateUser_preserves_passwords_nonempty
    (s : MockStoreState) (id : String) (updates : User → User) (password : Option String)
    (h : ∀ kv ∈ s.userPasswords, kv.2 ≠ "") :
    ∀ kv ∈ (updateUser s id updates password).userPasswords, kv.2 ≠ "" := by
  intro kv hkv
  cases password with
  | none => exact h kv hkv
  | some p =>
    by_cases hp : p ≠ "" ∧ p.trim ≠ ""
    · simp only [updateUser, if_pos hp, List.mem_cons] at hkv
      rcases hkv with hnew | hold
      · subst hnew; exact hp.1
      · exact h kv hold
    · simp only [updateUser, if_neg hp] at hkv
      exact h kv hkv

/-- Witness for C8: on the bootstrap store, admin with password admin
logs in and is returned. -/
theorem login_success_iff_witness :
    (login initialMockState "admin" (some "admin")).1
      = Except.ok { id := "1", username := "admin", role := UserRole.ADMIN,
                    email := "admin@local.host", createdAt := 0 } := by
  have h := (login_success_iff initialMockState "admin" (some "admin") (by decide)).2.1
    { id := "1", username := "admin", role := UserRole.ADMIN,
      email := "admin@local.host", createdAt := 0 } (by decide)
  exact (h.mpr (Or.inr ⟨"admin", by decide, rfl⟩)).1

/-- C9: getJobRuns returns, without touching the stored state, a
permutation of exactly the stored runs of the requested job, holding a
run if and only if it is stored with that jobId, ordered by startedAt
descending (most recent first). -/
theorem getJobRuns_spec (s : MockStoreState) (jobId : String) :
    ((getJobRuns s jobId).2 = s) ∧
    ((getJobRuns s jobId).1.Perm (s.jobRuns.filter (fun r => r.jobId == jobId))) ∧
    (∀ r, r ∈ (getJobRuns s jobId).1 ↔ (r ∈ s.jobRuns ∧ r.jobId = jobId)) ∧
    ((getJobRuns s jobId).1.Pairwise (fun a b => b.startedAt ≤ a.startedAt)) := by
  have htrans : ∀ a b c : JobRun, runStartedDesc a b = true → runStartedDesc b c = true →
      runStartedDesc a c = true := by
    intro a b c hab hbc
    simp only [runStartedDesc, decide_eq_true_eq] at *
    omega
  have htotal : ∀ a b : JobRun, (runStartedDesc a b || runStartedDesc b a) = true := by
    intro a b
    simp only [runStartedDesc, Bool.or_eq_true, decide_eq_true_eq]
    omega
  refine ⟨rfl, List.mergeSort_perm _ _, ?_, ?_⟩
  · intro r
    simp [getJobRuns, List.mem_mergeSort, List.mem_filter, and_comm]
  · have hs := @List.sorted_mergeSort JobRun runStartedDesc htrans htotal
      (s.jobRuns.filter (fun r => r.jobId == jobId))
    exact hs.imp (fun h => by simpa [runStartedDesc] using h)

/-- C10: after deleteJob no job with the given id and no run of that job
remains; every other job and run survives (as an order-preserving
sublist of the originals), and all unrelated store fields are unchanged. -/
theorem deleteJob_spec (s : MockStoreState) (id : String) :
    (∀ j, j ∈ (deleteJob s id).jobs ↔ (j ∈ s.jobs ∧ j.id ≠ id)) ∧
    (∀ r, r ∈ (deleteJob s id).jobRuns ↔ (r ∈ s.jobRuns ∧ r.jobId ≠ id)) ∧
    ((deleteJob s id).jobs.Sublist s.jobs) ∧
    ((deleteJob s id).jobRuns.Sublist s.jobRuns) ∧
    ((deleteJob s id).users = s.users) ∧
    ((deleteJob s id).userPasswords = s.userPasswords) ∧
    ((deleteJob s id).credentials = s.credentials) ∧
    ((deleteJob s id).settings = s.settings) ∧
    ((deleteJob s id).currentUser = s.currentUser) := by
  refine ⟨?_, ?_, List.filter_sublist _, List.filter_sublist _, rfl, rfl, rfl, rfl, rfl⟩
  · intro j
    simp [deleteJob, List.mem_filter, bne_iff_ne]
  · intro r
    simp [deleteJob, List.mem_filter, bne_iff_ne]

/-- C4: in a CompareResult a ref is synced exactly when its two commit
ids agree; new_in_source or new_in_dest exactly when it is present on
one side only; a branch on both sides with distinct commits is ahead,
behind or diverged exactly as dictated by the two reachability counts;
and a tag on both sides with distinct commits is always different.  The
side conditions record that the union iteration always has at least one
side present and that distinct git commits leave at least one direction
of the symmetric reachability difference nonempty. -/
theorem compare_status_classification
    (srcCommit destCommit : Option String) (aheadCount behindCount : Nat)
    (hpres : srcCommit.isSome ∨ destCommit.isSome)
    (hgit : ∀ sc dc, srcCommit = some sc → destCommit = some dc → sc ≠ dc →
      0 < aheadCount + behindCount) :
    (classifyBranch srcCommit destCommit aheadCount behindCount = BranchStatus.synced
      ↔ srcCommit = destCommit) ∧
    (classifyBranch srcCommit destCommit aheadCount behindCount = BranchStatus.new_in_source
      ↔ srcCommit.isSome ∧ destCommit = none) ∧
    (classifyBranch srcCommit destCommit aheadCount behindCount = BranchStatus.new_in_dest
      ↔ srcCommit = none ∧ destCommit.isSome) ∧
    (classifyBranch srcCommit destCommit aheadCount behindCount = BranchStatus.ahead
      ↔ ∃ sc dc, srcCommit = some sc ∧ destCommit = some dc ∧ sc ≠ dc
          ∧ 0 < aheadCount ∧ behindCount = 0) ∧
    (classifyBranch srcCommit destCommit aheadCount behindCount = BranchStatus.behind
      ↔ ∃ sc dc, srcCommit = some sc ∧ destCommit = some dc ∧ sc ≠ dc
          ∧ 0 < behindCount ∧ aheadCount = 0) ∧
    (classifyBranch srcCommit destCommit aheadCount behindCount = BranchStatus.diverged
      ↔ ∃ sc dc, srcCommit = some sc ∧ destCommit = some dc ∧ sc ≠ dc
          ∧ 0 < aheadCount ∧ 0 < behindCount) ∧
    (classifyTag srcCommit destCommit = TagStatus.synced ↔ srcCommit = destCommit) ∧
    (classifyTag srcCommit destCommit = TagStatus.new_in_source
      ↔ srcCommit.isSome ∧ destCommit = none) ∧
    (classifyTag srcCommit destCommit = TagStatus.new_in_dest
      ↔ srcCommit = none ∧ destCommit.isSome) ∧
    (classifyTag srcCommit destCommit = TagStatus.different
      ↔ ∃ sc dc, srcCommit = some sc ∧ destCommit = some dc ∧ sc ≠ dc) := by
  cases srcCommit with
  | none =>
    cases destCommit with
    | none => simp at hpres
    | some dc => simp [classifyBranch, classifyTag]
  | some sc =>
    cases destCommit with
    | none => simp [classifyBranch, classifyTag]
    | some dc =>
      by_cases heq : sc = dc
      · subst heq
        simp [classifyBranch, classifyTag]
      · have hcounts : 0 < aheadCount + behindCount := hgit sc dc rfl rfl heq
        have etag : classifyTag (some sc) (some dc) = TagStatus.different := by
          simp [classifyTag, heq]
        have tag1 : classifyTag (some sc) (some dc) = TagStatus.synced
            ↔ some sc = some dc := by
          rw [etag]
          simp [heq]
        have tag2 : classifyTag (some sc) (some dc) = TagStatus.new_in_source
            ↔ (some sc).isSome ∧ some dc = none := by
          rw [etag]; simp
        have tag3 : classifyTag (some sc) (some dc) = TagStatus.new_in_dest
            ↔ some sc = none ∧ (some dc).isSome := by
          rw [etag]; simp
        have tag4 : classifyTag (some sc) (some dc) = TagStatus.different
            ↔ ∃ x y, some sc = some x ∧ some dc = some y ∧ x ≠ y :=
          iff_of_true etag ⟨sc, dc, rfl, rfl, heq⟩
        by_cases ha : 0 < aheadCount ∧ behindCount = 0
        · have e1 : classifyBranch (some sc) (some dc) aheadCount behindCount
              = BranchStatus.ahead := by
            simp only [classifyBranch]
            rw [if_neg heq, if_pos ha]
          obtain ⟨ha1, ha2⟩ := ha
          refine ⟨?_, ?_, ?_, ?_, ?_, ?_, tag1, tag2, tag3, tag4⟩
          · rw [e1]; simp [heq]
          · rw [e1]; simp
          · rw [e1]; simp
          · exact iff_of_true e1 ⟨sc, dc, rfl, rfl, heq, ha1, ha2⟩
          · rw [e1]
            constructor
            · intro h; exact absurd h (by decide)
            · rintro ⟨x, y, hx, hy, hxy, h1, h2⟩
              omega
          · rw [e1]
            constructor
            · intro h; exact absurd h (by decide)
            · rintro ⟨x, y, hx, hy, hxy, h1, h2⟩
              omega
        · by_cases hb : 0 < behindCount ∧ aheadCount = 0
          · have e1 : classifyBranch (some sc) (some dc) aheadCount behindCount
                = BranchStatus.behind := by
              simp only [classifyBranch]
              rw [if_neg heq, if_neg ha, if_pos hb]
            obtain ⟨hb1, hb2⟩ := hb
            refine ⟨?_, ?_, ?_, ?_, ?_, ?_, tag1, tag2, tag3, tag4⟩
            · rw [e1]; simp [heq]
            · rw [e1]; simp
            · rw [e1]; simp
            · rw [e1]
              constructor
              · intro h; exact absurd h (by decide)
              · rintro ⟨x, y, hx, hy, hxy, h1, h2⟩
                omega
            · exact iff_of_true e1 ⟨sc, dc, rfl, rfl, heq, hb1, hb2⟩
            · rw [e1]
              constructor
              · intro h; exact absurd h (by decide)
              · rintro ⟨x, y, hx, hy, hxy, h1, h2⟩
                omega
          · have hdiv1 : 0 < aheadCount := by omega
            have hdiv2 : 0 < behindCount := by omega
            have e1 : classifyBranch (some sc) (some dc) aheadCount behindCount
                = BranchStatus.diverged := by
              simp only [classifyBranch]
              rw [if_neg heq, if_neg ha, if_neg hb]
            refine ⟨?_, ?_, ?_, ?_, ?_, ?_, tag1, tag2, tag3, tag4⟩
            · rw [e1]; simp [heq]
            · rw [e1]; simp
            · rw [e1]; simp
            · rw [e1]
              constructor
              · intro h; exact absurd h (by decide)
              · rintro ⟨x, y, hx, hy, hxy, h1, h2⟩
                omega
            · rw [e1]
              constructor
              · intro h; exact absurd h (by decide)
              · rintro ⟨x, y, hx, hy, hxy, h1, h2⟩
                omega
            · exact iff_of_true e1 ⟨sc, dc, rfl, rfl, heq, hdiv1, hdiv2⟩

/-- Witness for C4: a branch two commits ahead classifies as ahead, and
a mismatched tag classifies as different. -/
theorem compare_status_classification_witness :
    classifyBranch (some "aaa") (some "bbb") 2 0 = BranchStatus.ahead ∧
    classifyTag (some "aaa") (some "bbb") = TagStatus.different := by
  have h := compare_status_classification (some "aaa") (some "bbb") 2 0
    (Or.inl rfl) (by intro x y hx hy hxy; omega)
  exact ⟨(h.2.2.2.1).mpr ⟨"aaa", "bbb", rfl, rfl, by decide, by omega, rfl⟩,
         (h.2.2.2.2.2.2.2.2.2).mpr ⟨"aaa", "bbb", rfl, rfl, by decide⟩⟩

/-- Hexadecimal digit characters are never the at sign or the slash. -/
theorem hexDigit_not_special (n : Nat) (h : n < 16) :
    hexDigit n ≠ '@' ∧ hexDigit n ≠ '/' := by
  interval_cases n <;> exact ⟨by decide, by decide⟩

/-- Percent-encoding a character never emits an at sign or a slash. -/
theorem encChar_not_special (c : Char) : '@' ∉ encChar c ∧ '/' ∉ encChar c := by
  unfold encChar
  split
  · rename_i h
    constructor
    · simp only [List.mem_singleton]
      intro he
      subst he
      simp at h
    · simp only [List.mem_singleton]
      intro he
      subst he
      simp at h
  · have h1 := hexDigit_not_special (c.toNat / 16 % 16) (Nat.mod_lt _ (by omega))
    have h2 := hexDigit_not_special (c.toNat % 16) (Nat.mod_lt _ (by omega))
    constructor
    · intro hm
      rcases List.mem_cons.mp hm with he | hm2
      · exact absurd he.symm (by decide)
      · rcases List.mem_cons.mp hm2 with he | hm3
        · exact h1.1 he.symm
        · rcases List.mem_cons.mp hm3 with he | hm4
          · exact h2.1 he.symm
          · simp at hm4
    · intro hm
      rcases List.mem_cons.mp hm with he | hm2
      · exact absurd he.symm (by decide)
      · rcases List.mem_cons.mp hm2 with he | hm3
        · exact h1.2 he.symm
        · rcases List.mem_cons.mp hm3 with he | hm4
          · exact h2.2 he.symm
          · simp at hm4

/-- A percent-encoded credential component contains no at sign and no
slash: every reserved character has been escaped. -/
theorem percentEncode_not_special (s : String) :
    '@' ∉ percentEncode s ∧ '/' ∉ percentEncode s := by
  constructor
  · intro hm
    rcases List.mem_flatten.mp hm with ⟨l, hl, hcl⟩
    rcases List.mem_map.mp hl with ⟨c, _, rfl⟩
    exact (encChar_not_special c).1 hcl
  · intro hm
    rcases List.mem_flatten.mp hm with ⟨l, hl, hcl⟩
    rcases List.mem_map.mp hl with ⟨c, _, rfl⟩
    exact (encChar_not_special c).2 hcl

/-- injectCreds passes over a character that is not a colon. -/
theorem injectCreds_cons_ne (ui : List Char) (c : Char) (l : List Char) (hc : c ≠ ':') :
    injectCreds ui (c :: l) = c :: injectCreds ui l := by
  rw [injectCreds.eq_def]
  split
  · rename_i h
    simp at h
  · rename_i x rest heq
    injection heq with h1 h2
    exact absurd h1 hc
  · rename_i x1 cc rr hno heq
    injection heq with h1 h2
    subst h1
    subst h2
    rfl

/-- The sanitizer passes over a character that is not a colon. -/
theorem sanitizeList_cons_ne (c : Char) (l : List Char) (hc : c ≠ ':') :
    sanitizeList (c :: l) = c :: sanitizeList l := by
  rw [sanitizeList.eq_def]
  split
  · rename_i h
    simp at h
  · rename_i x rest heq
    injection heq with h1 h2
    exact absurd h1 hc
  · rename_i x1 cc rr hno heq
    injection heq with h1 h2
    subst h1
    subst h2
    rfl

/-- injectCreds places the user-info right after the scheme separator
when the scheme itself contains no colon. -/
theorem injectCreds_scheme (ui scheme rest : List Char) (hs : ':' ∉ scheme) :
    injectCreds ui (scheme ++ ':' :: '/' :: '/' :: rest)
      = scheme ++ ':' :: '/' :: '/' :: (ui ++ '@' :: rest) := by
  induction scheme with
  | nil => rfl
  | cons c t ih =>
    have hc : c ≠ ':' := fun e => hs (e ▸ List.mem_cons_self _ _)
    rw [List.cons_append, injectCreds_cons_ne _ _ _ hc,
      ih (fun m => hs (List.mem_cons_of_mem _ m)), List.cons_append]

/-- The sanitizer masks exactly the segment after the first scheme
separator when the scheme itself contains no colon. -/
theorem sanitizeList_scheme (scheme rest : List Char) (hs : ':' ∉ scheme) :
    sanitizeList (scheme ++ ':' :: '/' :: '/' :: rest)
      = scheme ++ ':' :: '/' :: '/' :: maskUserinfo rest := by
  induction scheme with
  | nil => rfl
  | cons c t ih =>
    have hc : c ≠ ':' := fun e => hs (e ▸ List.mem_cons_self _ _)
    rw [List.cons_append, sanitizeList_cons_ne _ _ hc,
      ih (fun m => hs (List.mem_cons_of_mem _ m)), List.cons_append]

/-- Dropping to the first at sign skips exactly a user-info free of at
signs. -/
theorem dropWhile_reaches_at (ui rest : List Char) (h : '@' ∉ ui) :
    (ui ++ '@' :: rest).dropWhile (fun c => c ≠ '@') = '@' :: rest := by
  induction ui with
  | nil => simp [List.dropWhile]
  | cons c t ih =>
    have hc : c ≠ '@' := fun e => h (e ▸ List.mem_cons_self _ _)
    have hcb : (decide (c ≠ '@')) = true := by simp [hc]
    rw [List.cons_append, List.dropWhile_cons, if_pos hcb]
    exact ih (fun m => h (List.mem_cons_of_mem _ m))

/-- The at sign terminating a slash-free user-info occurs before the
first slash. -/
theorem at_mem_takeWhile (ui rest : List Char) (h : '/' ∉ ui) :
    '@' ∈ (ui ++ '@' :: rest).takeWhile (fun c => c ≠ '/') := by
  induction ui with
  | nil =>
    simp [List.takeWhile_cons]
  | cons c t ih =>
    have hc : c ≠ '/' := fun e => h (e ▸ List.mem_cons_self _ _)
    have hcb : (decide (c ≠ '/')) = true := by simp [hc]
    rw [List.cons_append, List.takeWhile_cons, if_pos hcb]
    exact List.mem_cons_of_mem _ (ih (fun m => h (List.mem_cons_of_mem _ m)))

/-- Masking an authority whose user-info is free of at signs and slashes
replaces that user-info with the fixed mask. -/
theorem maskUserinfo_append (ui rest : List Char) (hat : '@' ∉ ui) (hsl : '/' ∉ ui) :
    maskUserinfo (ui ++ '@' :: rest) = sanitizerMask ++ '@' :: rest := by
  unfold maskUserinfo
  rw [if_pos (at_mem_takeWhile ui rest hsl), dropWhile_reaches_at ui rest hat]

/-- C6 (amended): for every well-formed URL (a colon-free scheme
followed by the scheme separator), sanitizing a basic-auth or token
credentialed URL yields exactly the credential-independent masked URL,
so the sanitized string is identical for all secret values and can
contain the secret only when the secret already occurs in that
credential-free masked URL. -/
theorem sanitizer_masks_credentials (scheme rest : List Char) (user pass token : String)
    (hs : ':' ∉ scheme) :
    (sanitizeUrl (buildBasicAuthUrl (String.mk (scheme ++ ':' :: '/' :: '/' :: rest)) user pass)
      = String.mk (scheme ++ ':' :: '/' :: '/' :: (sanitizerMask ++ '@' :: rest))) ∧
    (sanitizeUrl (buildTokenAuthUrl (String.mk (scheme ++ ':' :: '/' :: '/' :: rest)) token)
      = String.mk (scheme ++ ':' :: '/' :: '/' :: (sanitizerMask ++ '@' :: rest))) ∧
    (∀ user2 pass2 : String,
      sanitizeUrl (buildBasicAuthUrl (String.mk (scheme ++ ':' :: '/' :: '/' :: rest)) user pass)
        = sanitizeUrl (buildBasicAuthUrl (String.mk (scheme ++ ':' :: '/' :: '/' :: rest))
            user2 pass2)) := by
  have key : ∀ ui : List Char, '@' ∉ ui → '/' ∉ ui →
      sanitizeList (injectCreds ui (scheme ++ ':' :: '/' :: '/' :: rest))
        = scheme ++ ':' :: '/' :: '/' :: (sanitizerMask ++ '@' :: rest) := by
    intro ui hat hsl
    rw [injectCreds_scheme ui scheme rest hs, sanitizeList_scheme scheme _ hs,
      maskUserinfo_append ui rest hat hsl]
  have hbasic : '@' ∉ percentEncode user ++ ':' :: percentEncode pass ∧
      '/' ∉ percentEncode user ++ ':' :: percentEncode pass := by
    constructor
    · intro hm
      rcases List.mem_append.mp hm with hm1 | hm2
      · exact (percentEncode_not_special user).1 hm1
      · rcases List.mem_cons.mp hm2 with he | hm3
        · exact absurd he (by decide)
        · exact (percentEncode_not_special pass).1 hm3
    · intro hm
      rcases List.mem_append.mp hm with hm1 | hm2
      · exact (percentEncode_not_special user).2 hm1
      · rcases List.mem_cons.mp hm2 with he | hm3
        · exact absurd he (by decide)
        · exact (percentEncode_not_special pass).2 hm3
  have htoken : '@' ∉ "oauth2".data ++ ':' :: percentEncode token ∧
      '/' ∉ "oauth2".data ++ ':' :: percentEncode token := by
    constructor
    · intro hm
      rcases List.mem_append.mp hm with hm1 | hm2
      · exact absurd hm1 (by decide)
      · rcases List.mem_cons.mp hm2 with he | hm3
        · exact absurd he (by decide)
        · exact (percentEncode_not_special token).1 hm3
    · intro hm
      rcases List.mem_append.mp hm with hm1 | hm2
      · exact absurd hm1 (by decide)
      · rcases List.mem_cons.mp hm2 with he | hm3
        · exact absurd he (by decide)
        · exact (percentEncode_not_special token).2 hm3
  have he1 : sanitizeUrl (buildBasicAuthUrl (String.mk (scheme ++ ':' :: '/' :: '/' :: rest))
      user pass) = String.mk (scheme ++ ':' :: '/' :: '/' :: (sanitizerMask ++ '@' :: rest)) := by
    show String.mk (sanitizeList (injectCreds _ _)) = _
    rw [key _ hbasic.1 hbasic.2]
  refine ⟨he1, ?_, ?_⟩
  · show String.mk (sanitizeList (injectCreds _ _)) = _
    rw [key _ htoken.1 htoken.2]
  · intro user2 pass2
    rw [he1]
    have hbasic2 : '@' ∉ percentEncode user2 ++ ':' :: percentEncode pass2 ∧
        '/' ∉ percentEncode user2 ++ ':' :: percentEncode pass2 := by
      constructor
      · intro hm
        rcases List.mem_append.mp hm with hm1 | hm2
        · exact (percentEncode_not_special user2).1 hm1
        · rcases List.mem_cons.mp hm2 with he | hm3
          · exact absurd he (by decide)
          · exact (percentEncode_not_special pass2).1 hm3
      · intro hm
        rcases List.mem_append.mp hm with hm1 | hm2
        · exact (percentEncode_not_special user2).2 hm1
        · rcases List.mem_cons.mp hm2 with he | hm3
          · exact absurd he (by decide)
          · exact (percentEncode_not_special pass2).2 hm3
    show _ = String.mk (sanitizeList (injectCreds _ _))
    rw [key _ hbasic2.1 hbasic2.2]

/-- Counterexample to C6 as stated: when the password coincides with the
host name, the sanitized URL still contains the secret substring, even
though the user-info itself was fully masked. -/
theorem credential_secret_survives_sanitizer :
    subOccurs "example.com".data
      (sanitizeUrl (buildBasicAuthUrl "https://example.com/repo.git" "alice" "example.com")).data
      = true := by
  decide

/-- Witness for the amended C6 at a concrete scheme, host and secret. -/
theorem sanitizer_masks_credentials_witness :
    sanitizeUrl (buildBasicAuthUrl
        (String.mk ("https".data ++ ':' :: '/' :: '/' :: "github.com/u/r.git".data))
        "alice" "p4ss")
      = String.mk ("https".data ++ ':' :: '/' :: '/'
          :: (sanitizerMask ++ '@' :: "github.com/u/r.git".data)) := by
  exact (sanitizer_masks_credentials "https".data "github.com/u/r.git".data
    "alice" "p4ss" "tok" (by decide)).1
